import Mathlib

/-!
Shallow embedding of the OCTOSPI configuration paths (`src/xspi/octospi.rs`)
and of the DAC typestate and calibration API (`src/dac.rs`) of the
stm32h7xx-hal crate, with proofs about the specification's claims.

Machine integers are modelled as `Nat` with explicit reductions modulo
`2 ^ 32` (`u32`) and `256` (`u8`) at the operations where the source performs
wrapping machine arithmetic (the release-build semantics of Rust integer
overflow).  Fallible operations (the `panic!` on an out-of-range divisor and
the machine traps on division by zero) are modelled with `Option`, where
`none` is the panic outcome.  The single-precision float computation of the
Hyperbus clock period is modelled exactly (round to nearest, ties to even,
24-bit significand).
-/

namespace Stm32Hal

/-- Modulus of the `u32` machine integers used by the driver. -/
def U32 : Nat := 4294967296

/-- Wrapping `u8` decrement by one: the value of `x - 1` computed on a `u8`
under release-build (two's complement wrapping) semantics, for `x < 256`. -/
def u8sub1 (x : Nat) : Nat := (x + 255) % 256

/-- Wrapping `u8` increment: the release-build value of `trim += 1` in
`calibrate_buffer` (`src/dac.rs`). -/
def u8wrapSucc (t : Nat) : Nat := (t + 1) % 256

/-- Ceiling division as the specification states it: for `b ≥ 1` this is the
mathematical ceiling of `a / b`; for `b = 0` the `Nat` conventions give `0`.
This is the specification-side formula, used in hypotheses and amended
statements. -/
def specCeilDiv (a b : Nat) : Nat := (a + b - 1) / b

/-- Value of the source expression
`(spi_kernel_ck + spi_frequency - 1) / spi_frequency` under wrapping `u32`
semantics: the addition and the subtraction reduce modulo `2 ^ 32`.  `Nat`
division by zero yields `0`, which the callers' `1..=256` range check rejects;
the source traps on the division by zero instead, so both models panic on a
zero frequency. -/
def u32CeilExpr (kernel freq : Nat) : Nat :=
  (((kernel + freq) % U32 + (U32 - 1)) % U32) / freq

/-! ## Exact model of the single-precision float computation

`octospi.rs` computes the achieved clock period as
`1e9 * (divisor as f32) / (spi_kernel_ck as f32)` followed by `as u32`
(truncation toward zero, saturating).  All values involved are positive and
normal, so the computation is: round the product to 24 significant bits,
round the kernel clock to 24 significant bits, divide with round to nearest
(ties to even) at 24 significant bits, truncate. -/

/-- Number of binary digits of a natural number, written with explicit fuel so
that the kernel can evaluate it on concrete inputs. -/
def bitLen : Nat → Nat → Nat
  | 0, _ => 0
  | _ + 1, 0 => 0
  | fuel + 1, n + 1 => bitLen fuel ((n + 1) / 2) + 1

/-- Round a natural number to 24 significant binary digits, round to nearest
with ties to even: the value of the IEEE-754 single precision float nearest to
`n`.  This is the exact value of `n as f32` for a `u32` input `n`, and of a
product of two exactly-representable factors. -/
def round24 (n : Nat) : Nat :=
  let s := bitLen 256 n
  if s ≤ 24 then n
  else
    let sh := s - 24
    let q := n / 2 ^ sh
    let r := n % 2 ^ sh
    let m := if 2 * r > 2 ^ sh ∨ (2 * r = 2 ^ sh ∧ q % 2 = 1) then q + 1 else q
    m * 2 ^ sh

/-- IEEE-754 single-precision division of two positive integer-valued floats
`c / k`, followed by Rust `as u32` (truncation toward zero, saturating at
`2 ^ 32 - 1`; a division by zero gives positive infinity, which saturates).
The quotient is scaled by `2 ^ 64` so that the 24-bit significand and the
guard and sticky information can be read off with integer arithmetic; this is
exact whenever the quotient is at least `2 ^ -40`, which covers every input
reachable from the driver (`c ≥ 1`, `1 ≤ k < 2 ^ 32`). -/
def f32DivToU32 (c k : Nat) : Nat :=
  if c = 0 then 0
  else if k = 0 then U32 - 1
  else
    let N := c * 2 ^ 64
    let Q := N / k
    let R := N % k
    let s := bitLen 256 Q
    let sh := s - 24
    let q := Q / 2 ^ sh
    let r := Q % 2 ^ sh
    let m :=
      if 2 * r > 2 ^ sh ∨ (2 * r = 2 ^ sh ∧ (R ≠ 0 ∨ q % 2 = 1)) then q + 1
      else q
    min (m * 2 ^ sh / 2 ^ 64) (U32 - 1)

/-- The achieved Hyperbus clock period in nanoseconds:
`let period_ns = 1e9 * (divisor as f32) / (spi_kernel_ck as f32);`
`let period_ns = period_ns as u32; // floor`
from `octospi.rs`.  Both `1e9` and the `u8` divisor are exactly representable
in single precision, so the product rounds once; the kernel clock conversion
rounds; the division rounds; the cast truncates. -/
def hyperbusPeriodNs (divisor kernel : Nat) : Nat :=
  f32DivToU32 (round24 (1000000000 * divisor)) (round24 kernel)

/-- The refresh cycle count written to DCR4:
`let interval_ns = (1000 * hyperbus.refresh_interval.0 as u32);`
`(interval_ns + period_ns - 1) / period_ns`
with wrapping `u32` multiplication, addition and subtraction; the `u32`
division traps when `period_ns = 0`, modelled as `none`. -/
def refreshCyclesRaw (period_ns interval_us : Nat) : Option Nat :=
  let interval_ns := (1000 * interval_us) % U32
  if period_ns = 0 then none
  else some ((((interval_ns + period_ns) % U32 + (U32 - 1)) % U32) / period_ns)

/-! ## Configuration values -/

/-- Modelled from the spec: the sampling edge variants of the indirect-SPI
configuration (`SamplingEdge` lives in `src/xspi/mod.rs`, which is not part of
the sources given; the spec lists `{Rising, Falling}`). -/
inductive SamplingEdge
  | rising
  | falling
  deriving DecidableEq, Repr

/-- Modelled from the spec: the indirect-SPI configuration record
(`Config` lives in `src/xspi/mod.rs`, which is not part of the sources given;
the spec lists frequency, a transfer width mode, `dummy_cycles : u8` and
`fifo_threshold : u8 ∈ [1, 32]`, and a sampling edge).  `modeRegValue` stands
for the source's `config.mode.reg_value()`. -/
structure Config where
  frequency : Nat
  modeRegValue : Nat
  dummy_cycles : Nat
  fifo_threshold : Nat
  sampling_edge : SamplingEdge
  deriving DecidableEq, Repr

/-- The Hyperbus configuration record of `octospi.rs`.  `Hertz` and
`MicroSeconds` are `u32` newtypes, modelled as `Nat`. -/
structure HyperbusConfig where
  frequency : Nat
  size_order : Nat
  refresh_interval : Nat
  chip_select_high : Nat
  read_write_recovery : Nat
  access_initial_latency : Nat
  deriving DecidableEq, Repr

/-- The default Hyperbus configuration, `HyperbusConfig::new`. -/
def HyperbusConfig.new (frequency : Nat) : HyperbusConfig where
  frequency := frequency
  size_order := 23
  refresh_interval := 4
  chip_select_high := 4
  read_write_recovery := 4
  access_initial_latency := 6

/-- Builder setter `HyperbusConfig::device_size_bytes` (the debug assertions
of the source are captured by `HyperbusConfig.Wellformed`). -/
def HyperbusConfig.setDeviceSizeBytes (h : HyperbusConfig) (size_order : Nat) :
    HyperbusConfig :=
  { h with size_order := size_order }

/-- Builder setter `HyperbusConfig::refresh_interval`. -/
def HyperbusConfig.setRefreshInterval (h : HyperbusConfig) (interval : Nat) :
    HyperbusConfig :=
  { h with refresh_interval := interval }

/-- Builder setter `HyperbusConfig::chip_select_high`. -/
def HyperbusConfig.setChipSelectHigh (h : HyperbusConfig) (csh : Nat) :
    HyperbusConfig :=
  { h with chip_select_high := csh }

/-- The ranges asserted by the builder's debug assertions together with the
`u8`/`u32` bounds of the fields: `size_order ∈ [5, 26]`,
`chip_select_high ∈ [1, 64]`, and every field within its machine-integer
range. -/
def HyperbusConfig.Wellformed (h : HyperbusConfig) : Prop :=
  5 ≤ h.size_order ∧ h.size_order ≤ 26 ∧
    1 ≤ h.chip_select_high ∧ h.chip_select_high ≤ 64 ∧
    h.frequency < U32 ∧ h.refresh_interval < U32 ∧
    h.read_write_recovery < 256 ∧ h.access_initial_latency < 256

/-! ## Register model

One field per register field written by the two configuration paths.  The
values stored are the values passed to the peripheral-access-crate writers;
a full register `write` resets the register's other fields to zero, a
`modify` leaves them unchanged. -/

structure OctospiRegs where
  cr_en : Bool
  cr_fmode : Nat
  cr_fthres : Nat
  fcr_ctof : Bool
  fcr_csmf : Bool
  fcr_ctcf : Bool
  fcr_ctef : Bool
  dcr1_mtyp : Nat
  dcr1_devsize : Nat
  dcr1_csht : Nat
  dcr2_prescaler : Nat
  dcr3_csbound : Nat
  dcr4_refresh : Nat
  ccr_dqse : Bool
  ccr_ddtr : Bool
  ccr_dmode : Nat
  ccr_adsize : Nat
  ccr_addtr : Bool
  ccr_admode : Nat
  ccr_imode : Nat
  wccr_dqse : Bool
  wccr_ddtr : Bool
  wccr_dmode : Nat
  wccr_adsize : Nat
  wccr_addtr : Bool
  wccr_admode : Nat
  tcr_sshift : Bool
  tcr_dcyc : Nat
  tcr_dhqc : Bool
  hlcr_trwr : Nat
  hlcr_tacc : Nat
  hlcr_wzl : Bool
  hlcr_lm : Bool
  deriving DecidableEq, Repr

/-- The reset value of the modelled registers. -/
def OctospiRegs.reset : OctospiRegs where
  cr_en := false
  cr_fmode := 0
  cr_fthres := 0
  fcr_ctof := false
  fcr_csmf := false
  fcr_ctcf := false
  fcr_ctef := false
  dcr1_mtyp := 0
  dcr1_devsize := 0
  dcr1_csht := 0
  dcr2_prescaler := 0
  dcr3_csbound := 0
  dcr4_refresh := 0
  ccr_dqse := false
  ccr_ddtr := false
  ccr_dmode := 0
  ccr_adsize := 0
  ccr_addtr := false
  ccr_admode := 0
  ccr_imode := 0
  wccr_dqse := false
  wccr_ddtr := false
  wccr_dmode := 0
  wccr_adsize := 0
  wccr_addtr := false
  wccr_admode := 0
  tcr_sshift := false
  tcr_dcyc := 0
  tcr_dhqc := false
  hlcr_trwr := 0
  hlcr_tacc := 0
  hlcr_wzl := false
  hlcr_lm := false

/-- The values the successful Hyperbus path returns in its `Hyperbus` struct
(the register block itself is carried separately here). -/
structure HyperbusOut where
  frequency : Nat
  refresh_cycles : Nat
  deriving DecidableEq, Repr

/-- The indirect-mode configuration sequence, `Octospi::$name` from the
`octospi_impl!` macro of `octospi.rs`, with `spi_kernel_ck` (the kernel clock
read from the RCC collaborator) passed as an argument.  The busy-wait poll of
SR.BUSY reads no modelled state and writes none.  The second component is
`none` exactly on the panic path (`panic!("Invalid OCTOSPI frequency
requested")`). -/
def octospiConfigure (regs : OctospiRegs) (config : Config)
    (spi_kernel_ck : Nat) : OctospiRegs × Option Unit :=
  -- regs.cr.write(|w| w.en().clear_bit());
  let regs := { regs with cr_en := false, cr_fmode := 0, cr_fthres := 0 }
  -- while regs.sr.read().busy().bit_is_set() {}
  -- regs.fcr.write(ctof, csmf, ctcf, ctef all set)
  let regs :=
    { regs with fcr_ctof := true, fcr_csmf := true, fcr_ctcf := true,
                fcr_ctef := true }
  -- regs.cr.write(fmode = 0 indirect, fthres = fifo_threshold - 1)
  let regs :=
    { regs with cr_en := false, cr_fmode := 0,
                cr_fthres := u8sub1 config.fifo_threshold }
  -- regs.dcr1.write(mtyp = 2 standard, devsize = 0x1F)
  let regs :=
    { regs with dcr1_mtyp := 2, dcr1_devsize := 31, dcr1_csht := 0 }
  -- regs.ccr.write(dmode, admode, adsize = 0, imode = 0)
  let regs :=
    { regs with ccr_dmode := config.modeRegValue,
                ccr_admode := config.modeRegValue, ccr_adsize := 0,
                ccr_imode := 0, ccr_dqse := false, ccr_ddtr := false,
                ccr_addtr := false }
  -- Prescaler: match (spi_kernel_ck + spi_frequency - 1) / spi_frequency
  let d := u32CeilExpr spi_kernel_ck config.frequency
  if 1 ≤ d ∧ d ≤ 256 then
    -- divisor @ 1..=256 => divisor - 1, then .bits(divisor as u8)
    let divisor := d - 1
    let regs := { regs with dcr2_prescaler := divisor % 256 }
    -- regs.tcr.write(sshift = (sampling_edge == Falling), dcyc = dummy_cycles)
    let regs :=
      { regs with tcr_sshift := config.sampling_edge = SamplingEdge.falling,
                  tcr_dcyc := config.dummy_cycles, tcr_dhqc := false }
    -- regs.cr.modify(|_, w| w.en().set_bit())
    let regs := { regs with cr_en := true }
    (regs, some ())
  else (regs, none)

/-- The Hyperbus configuration sequence, `Octospi::$name_hyperbus` from the
`octospi_impl!` macro of `octospi.rs`.  The second component is `none` on any
panic path: the out-of-range divisor panic, the division by zero in
`spi_kernel_ck / divisor as u32` when the `divisor as u8` truncation has
produced `0`, and the division by zero in the refresh-cycle computation when
`period_ns = 0`. -/
def octospiHyperbusConfigure (regs : OctospiRegs) (hyperbus : HyperbusConfig)
    (spi_kernel_ck : Nat) : OctospiRegs × Option HyperbusOut :=
  -- regs.cr.write(|w| w.en().clear_bit());
  let regs := { regs with cr_en := false, cr_fmode := 0, cr_fthres := 0 }
  let d := u32CeilExpr spi_kernel_ck hyperbus.frequency
  if 1 ≤ d ∧ d ≤ 256 then
    -- divisor @ 1..=256 => divisor as u8
    let divisor := d % 256
    -- let frequency = Hertz(spi_kernel_ck / divisor as u32);
    if divisor = 0 then (regs, none)
    else
      let frequency := spi_kernel_ck / divisor
      let period_ns := hyperbusPeriodNs divisor spi_kernel_ck
      -- while regs.sr.read().busy().bit_is_set() {}
      -- regs.fcr.write(ctof, csmf, ctcf, ctef all set)
      let regs :=
        { regs with fcr_ctof := true, fcr_csmf := true, fcr_ctcf := true,
                    fcr_ctef := true }
      -- regs.cr.write(fmode = 3 memory-mapped, fthres = 4 - 1)
      let regs := { regs with cr_en := false, cr_fmode := 3, cr_fthres := 3 }
      -- regs.dcr1.write(mtyp = 4 hyperbus, devsize, csht = chip_select_high - 1)
      let regs :=
        { regs with dcr1_mtyp := 4, dcr1_devsize := hyperbus.size_order,
                    dcr1_csht := u8sub1 hyperbus.chip_select_high }
      -- regs.dcr2.write(prescaler = divisor - 1)  (u8 subtraction)
      let regs := { regs with dcr2_prescaler := u8sub1 divisor }
      -- regs.dcr3.write(csbound = size_order - 1)  (u8 subtraction)
      let regs := { regs with dcr3_csbound := u8sub1 hyperbus.size_order }
      -- let refresh_cycles = (interval_ns + period_ns - 1) / period_ns;
      (refreshCyclesRaw period_ns hyperbus.refresh_interval).elim
        (regs, none)
        fun refresh_cycles =>
        -- regs.dcr4.write(refresh = refresh_cycles)
        let regs := { regs with dcr4_refresh := refresh_cycles }
        -- regs.ccr.write(dqse, ddtr, dmode = 4, adsize = 3, addtr, admode = 4)
        let regs :=
          { regs with ccr_dqse := true, ccr_ddtr := true, ccr_dmode := 4,
                      ccr_adsize := 3, ccr_addtr := true, ccr_admode := 4,
                      ccr_imode := 0 }
        -- regs.wccr.write(dqse, ddtr, dmode = 4, adsize = 3, addtr, admode = 4)
        let regs :=
          { regs with wccr_dqse := true, wccr_ddtr := true, wccr_dmode := 4,
                      wccr_adsize := 3, wccr_addtr := true, wccr_admode := 4 }
        -- regs.tcr.write(dhqc set)
        let regs :=
          { regs with tcr_dhqc := true, tcr_sshift := false, tcr_dcyc := 0 }
        -- regs.hlcr.modify(trwr, tacc, wzl clear, lm set)
        let regs :=
          { regs with hlcr_trwr := hyperbus.read_write_recovery,
                      hlcr_tacc := hyperbus.access_initial_latency,
                      hlcr_wzl := false, hlcr_lm := true }
        (regs, some { frequency := frequency, refresh_cycles := refresh_cycles })
  else (regs, none)

/-! ## DAC typestate API

`src/dac.rs` implements the channel lifecycle with phantom type states:
`enable` and `enable_unbuffered` exist only on `Disabled` tokens
(`impl HalDisabledDac for $CX<$DAC, Disabled>`), while `calibrate_buffer` and
`disable` exist on every state (`impl<ED> HalDac for $CX<$DAC, ED>`) as do
`set_value` and `get_value` (`impl<ED> DacOut<u16> for $CX<$DAC, ED>`).  Each
constructor of `DacStep` is one method of one impl, with its input state, and
the state of the token (or `self`) after the call. -/

inductive DacState
  | disabled
  | enabled
  | enabledUnbuffered
  deriving DecidableEq, Repr

inductive DacOp
  | enable
  | enableUnbuffered
  | disable
  | calibrateBuffer
  | setValue (v : Nat)
  | getValue
  deriving DecidableEq, Repr

/-- The transition relation of the DAC channel typestate API. -/
inductive DacStep : DacState → DacOp → DacState → Prop
  | enable : DacStep .disabled .enable .enabled
  | enableUnbuffered : DacStep .disabled .enableUnbuffered .enabledUnbuffered
  | disable (s : DacState) : DacStep s .disable .disabled
  | calibrateBuffer (s : DacState) : DacStep s .calibrateBuffer .disabled
  | setValue (s : DacState) (v : Nat) : DacStep s (.setValue v) s
  | getValue (s : DacState) : DacStep s .getValue s

/-! ## Calibration engine

`calibrate_buffer` is modelled as the sequence of hardware effects it
performs, driven by an oracle `flag : Nat → Bool` giving the value the
CAL_FLAG status bit reads at the k-th poll.  The `while true` loop has no
bound in the source; the model takes explicit fuel, and `none` means the loop
is still running after `fuel` iterations. -/

inductive DacEvent
  | clearEn
  | modeZero
  | setCen
  | writeTrim (t : Nat)
  | delayUs (n : Nat)
  | pollFlag (b : Bool)
  | clearCen
  deriving DecidableEq, Repr

/-- The body of the trim-search loop of `calibrate_buffer`: at the k-th
iteration it programs the current `trim` value (a `u8`, so incremented with
`u8wrapSucc` under release semantics), waits 64 microseconds, polls the
calibration flag, and either stops or increments and retries. -/
def calLoop (flag : Nat → Bool) : Nat → Nat → Nat → Option (List DacEvent)
  | 0, _, _ => none
  | fuel + 1, k, trim =>
    let evs : List DacEvent :=
      [.writeTrim trim, .delayUs 64, .pollFlag (flag k)]
    if flag k then some evs
    else (calLoop flag fuel (k + 1) (u8wrapSucc trim)).map (evs ++ ·)

/-- Debug-build variant of the loop: `trim += 1` is checked `u8` arithmetic
and aborts on overflow.  `none` means still running after `fuel` iterations;
`some none` is the overflow abort; `some (some tr)` is normal completion with
trace `tr`. -/
def calLoopChecked (flag : Nat → Bool) :
    Nat → Nat → Nat → Option (Option (List DacEvent))
  | 0, _, _ => none
  | fuel + 1, k, trim =>
    let evs : List DacEvent :=
      [.writeTrim trim, .delayUs 64, .pollFlag (flag k)]
    if flag k then some (some evs)
    else if 256 ≤ trim + 1 then some none
    else (calLoopChecked flag fuel (k + 1) (trim + 1)).map
      (Option.map (evs ++ ·))

/-- The full effect trace of `calibrate_buffer`: clear the channel enable
bit, write 0 to the buffered-mode field, set the calibration-enable bit, run
the trim-search loop, clear the calibration-enable bit. -/
def calibrateBufferTrace (flag : Nat → Bool) (fuel : Nat) :
    Option (List DacEvent) :=
  (calLoop flag fuel 0 0).map
    (fun l => .clearEn :: .modeZero :: .setCen :: (l ++ [.clearCen]))

/-- The typestate of the token `calibrate_buffer` returns,
`$CX<$DAC, Disabled>`. -/
def calibrateBufferResultState : DacState := .disabled

/-- The trim values programmed during a trace, in order. -/
def trimWrites (l : List DacEvent) : List Nat :=
  l.filterMap fun e =>
    match e with
    | .writeTrim t => some t
    | _ => none

/-! ## Arithmetic facts about the divisor expression -/

/-- When the `u32` addition `kernel + freq` does not overflow, the wrapped
source expression agrees with the mathematical ceiling division. -/
theorem u32CeilExpr_eq_of_no_overflow (k f : Nat) (hf : 1 ≤ f)
    (hov : k + f ≤ U32) : u32CeilExpr k f = specCeilDiv k f := by
  have hnum : ((k + f) % U32 + (U32 - 1)) % U32 = k + f - 1 := by
    unfold U32 at *
    omega
  unfold u32CeilExpr specCeilDiv
  rw [hnum]

/-- When the `u32` addition overflows, the wrapped numerator ends up strictly
below `freq` and the computed divisor is `0` (which the range check sends to
the panic path). -/
theorem u32CeilExpr_eq_zero_of_overflow (k f : Nat) (hk : k < U32)
    (hov : U32 < k + f) : u32CeilExpr k f = 0 := by
  unfold u32CeilExpr
  apply Nat.div_eq_of_lt
  unfold U32 at *
  omega

/-- If the mathematical ceiling divisor is `0` or exceeds `256`, the `1..=256`
range check on the machine-computed divisor fails, for every representable
input. -/
theorem divisor_check_fails (k f : Nat) (hk : k < U32) (hf : f < U32)
    (hd : specCeilDiv k f = 0 ∨ 256 < specCeilDiv k f) :
    ¬ (1 ≤ u32CeilExpr k f ∧ u32CeilExpr k f ≤ 256) := by
  rcases Nat.eq_zero_or_pos f with hf0 | hf1
  · subst hf0
    simp [u32CeilExpr]
  · rcases le_or_lt (k + f) U32 with hov | hov
    · rw [u32CeilExpr_eq_of_no_overflow k f hf1 hov]
      rcases hd with h0 | h256
      · rw [h0]; simp
      · rintro ⟨-, hle⟩; omega
    · rw [u32CeilExpr_eq_zero_of_overflow k f hk hov]
      simp

/-! ## Concrete values used by the claims -/

/-- A concrete indirect-SPI configuration requesting 1.09375 MHz (the
frequency at which a 280 MHz kernel clock needs the maximal divisor 256). -/
def configDiv256 : Config where
  frequency := 1093750
  modeRegValue := 1
  dummy_cycles := 0
  fifo_threshold := 4
  sampling_edge := .falling

/-- C1: at a ceiling divisor of exactly 256 the indirect path configures the
prescaler correctly (field 255 = divisor - 1), but the Hyperbus path
truncates the divisor with `as u8` to 0 before using it and then panics on
`spi_kernel_ck / 0`; the claim (and the spec) promise a successful
configuration with achieved frequency `kernel / 256` on both paths.  The
peripheral is left disabled by the panic. -/
theorem c1_hyperbus_divisor256_bug :
    u32CeilExpr 280000000 1093750 = 256 ∧
    (octospiConfigure OctospiRegs.reset configDiv256 280000000).2 =
      some () ∧
    (octospiConfigure OctospiRegs.reset configDiv256
      280000000).1.dcr2_prescaler = 255 ∧
    (octospiHyperbusConfigure OctospiRegs.reset (HyperbusConfig.new 1093750)
      280000000).2 = none ∧
    (octospiHyperbusConfigure OctospiRegs.reset (HyperbusConfig.new 1093750)
      280000000).1.cr_en = false ∧
    (octospiHyperbusConfigure OctospiRegs.reset (HyperbusConfig.new 50000000)
      280000000).2 =
      some { frequency := 46666666, refresh_cycles := 191 } := by
  refine ⟨by decide, by decide, by decide, by decide, by decide, by decide⟩

/-- C3 counterexample: it is not true that from an `Enabled` token the only
available operation is `disable`: `calibrate_buffer` is implemented for every
state (`impl<ED> HalDac for $CX<$DAC, ED>`) and consumes an `Enabled` token,
returning a `Disabled` one. -/
theorem c3_counterexample :
    ¬ (∀ op s', DacStep .enabled op s' → op = DacOp.disable) := by
  intro h
  have := h DacOp.calibrateBuffer .disabled (DacStep.calibrateBuffer _)
  exact absurd this (by decide)

/-- C6 counterexample: the achieved period is computed in single-precision
float arithmetic, which rounds: at divisor 9 and a 1 GHz kernel clock the
code computes `period_ns = 8`, not the exact truncation
`1e9 * 9 / 1e9 = 9` the claim states (the product `9e9` is not representable
in an `f32` and rounds down to `8999999488`). -/
theorem c6_counterexample :
    hyperbusPeriodNs 9 1000000000 ≠ 1000000000 * 9 / 1000000000 := by
  decide

/-- C7 counterexample: with a zero refresh interval the refresh-cycle
computation is not bypassed: the Hyperbus path still computes
`(0 + period_ns - 1) / period_ns = 0` and writes it to DCR4, overwriting
whatever the field held (here a sentinel value 7). -/
theorem c7_counterexample :
    (octospiHyperbusConfigure { OctospiRegs.reset with dcr4_refresh := 7 }
        ((HyperbusConfig.new 50000000).setRefreshInterval 0)
        280000000).1.dcr4_refresh ≠ 7 ∧
    refreshCyclesRaw 21 0 = some 0 := by
  exact ⟨by decide, by decide⟩

/-- C8 counterexample: the refresh-cycle computation is not monotonic in the
refresh interval: `1000 * refresh_interval` is a wrapping `u32` multiply, so
doubling a 3-second interval (3,000,000 µs) to 6,000,000 µs wraps
`6e9` to `1705032704` ns and the cycle count drops (here at the period
21 ns computed for divisor 6 at a 280 MHz kernel clock). -/
theorem c8_counterexample :
    (refreshCyclesRaw (hyperbusPeriodNs 6 280000000) 6000000).getD 0 <
      (refreshCyclesRaw (hyperbusPeriodNs 6 280000000) 3000000).getD 0 := by
  decide

/-- C2: for every representable kernel clock and desired frequency whose
ceiling divisor is `0` or exceeds `256`, both configuration paths reach the
panic (never a silently accepted wrong divisor), having cleared the enable
bit first and never setting it on the failing path: the peripheral is left
disabled. -/
theorem c2_out_of_range_panics_disabled (regs : OctospiRegs) (cfg : Config)
    (hyp : HyperbusConfig) (k f : Nat) (hcf : cfg.frequency = f)
    (hhf : hyp.frequency = f) (hk : k < U32) (hf : f < U32)
    (hd : specCeilDiv k f = 0 ∨ 256 < specCeilDiv k f) :
    (octospiConfigure regs cfg k).2 = none ∧
    (octospiConfigure regs cfg k).1.cr_en = false ∧
    (octospiHyperbusConfigure regs hyp k).2 = none ∧
    (octospiHyperbusConfigure regs hyp k).1.cr_en = false := by
  have hfail := divisor_check_fails k f hk hf hd
  have hfail1 :
      ¬ (1 ≤ u32CeilExpr k cfg.frequency ∧
          u32CeilExpr k cfg.frequency ≤ 256) := by rw [hcf]; exact hfail
  have hfail2 :
      ¬ (1 ≤ u32CeilExpr k hyp.frequency ∧
          u32CeilExpr k hyp.frequency ≤ 256) := by rw [hhf]; exact hfail
  refine ⟨?_, ?_, ?_, ?_⟩
  · simp only [octospiConfigure]
    rw [if_neg hfail1]
  · simp only [octospiConfigure]
    rw [if_neg hfail1]
  · simp only [octospiHyperbusConfigure]
    rw [if_neg hfail2]
  · simp only [octospiHyperbusConfigure]
    rw [if_neg hfail2]

/-- Witness for C2 at a concrete out-of-range request: a 280 MHz kernel clock
with a 1 kHz requested frequency needs divisor 280000, far beyond the 8-bit
field. -/
theorem c2_witness :
    (octospiConfigure OctospiRegs.reset
      { configDiv256 with frequency := 1000 } 280000000).2 = none ∧
    (octospiConfigure OctospiRegs.reset
      { configDiv256 with frequency := 1000 } 280000000).1.cr_en = false ∧
    (octospiHyperbusConfigure OctospiRegs.reset (HyperbusConfig.new 1000)
      280000000).2 = none ∧
    (octospiHyperbusConfigure OctospiRegs.reset (HyperbusConfig.new 1000)
      280000000).1.cr_en = false :=
  c2_out_of_range_panics_disabled OctospiRegs.reset
    { configDiv256 with frequency := 1000 } (HyperbusConfig.new 1000)
    280000000 1000 rfl rfl (by decide) (by decide) (by decide)

/-- C3 amended: the full transition structure of the DAC typestate API.
`Enabled` and `EnabledUnbuffered` are reachable only from `Disabled` via the
respective enable call (`set_value`/`get_value` keep whatever state the token
has), and from an enabled state the state-changing operations are `disable`
and `calibrate_buffer`, both returning a `Disabled` token, alongside the
state-preserving `set_value`/`get_value`. -/
theorem c3_transition_characterization (s : DacState) (op : DacOp)
    (s' : DacState) :
    DacStep s op s' ↔
      ((s = .disabled ∧ op = .enable ∧ s' = .enabled) ∨
       (s = .disabled ∧ op = .enableUnbuffered ∧
         s' = .enabledUnbuffered) ∨
       (op = .disable ∧ s' = .disabled) ∨
       (op = .calibrateBuffer ∧ s' = .disabled) ∨
       ((∃ v, op = .setValue v) ∧ s' = s) ∨
       (op = .getValue ∧ s' = s)) := by
  constructor
  · intro h
    cases h <;> simp
  · rintro (⟨rfl, rfl, rfl⟩ | ⟨rfl, rfl, rfl⟩ | ⟨rfl, rfl⟩ | ⟨rfl, rfl⟩ |
      ⟨⟨v, rfl⟩, rfl⟩ | ⟨rfl, rfl⟩)
    · exact .enable
    · exact .enableUnbuffered
    · exact .disable s
    · exact .calibrateBuffer s
    · exact .setValue _ v
    · exact .getValue _

/-! ## Refresh-cycle computation -/

/-- In the overflow-free regime the refresh-cycle computation is exactly the
ceiling of the refresh interval in nanoseconds over the achieved period. -/
theorem refreshCyclesRaw_eq (p i : Nat) (hp : 1 ≤ p)
    (hov : 1000 * i + p ≤ U32) :
    refreshCyclesRaw p i = some (specCeilDiv (1000 * i) p) := by
  have hlt : 1000 * i < U32 := by
    unfold U32 at *
    omega
  have hnum :
      (((1000 * i) % U32 + p) % U32 + (U32 - 1)) % U32 = 1000 * i + p - 1 := by
    unfold U32 at *
    omega
  unfold refreshCyclesRaw specCeilDiv
  rw [if_neg (by omega)]
  rw [hnum]

/-- C6 amended: the achieved period is the single-precision float value of
`1e9 * divisor / kernel_clock` truncated to an integer (which can differ from
the exact integer truncation by rounding), and with that period every
overflow-free, non-degenerate refresh computation programs exactly the
ceiling `refresh_interval_ns / period_ns`; concretely, divisor 6 at a 280 MHz
kernel clock gives `period_ns = 21` and a 4 microsecond refresh interval
gives a refresh cycle count of 191. -/
theorem c6_refresh_is_ceiling (p i : Nat) (hp : 1 ≤ p)
    (hov : 1000 * i + p ≤ U32) :
    refreshCyclesRaw p i = some (specCeilDiv (1000 * i) p) ∧
    hyperbusPeriodNs 6 280000000 = 21 ∧
    refreshCyclesRaw (hyperbusPeriodNs 6 280000000) 4 = some 191 :=
  ⟨refreshCyclesRaw_eq p i hp hov, by decide, by decide⟩

/-- Witness for C6 at the concrete scenario of the specification:
period 21 ns and the default 4 µs refresh interval. -/
theorem c6_witness :
    refreshCyclesRaw 21 4 = some (specCeilDiv (1000 * 4) 21) ∧
    hyperbusPeriodNs 6 280000000 = 21 ∧
    refreshCyclesRaw (hyperbusPeriodNs 6 280000000) 4 = some 191 :=
  c6_refresh_is_ceiling 21 4 (by decide) (by decide)

/-- C7 amended: a zero refresh interval does not bypass the computation; the
code computes `(0 + period_ns - 1) / period_ns = 0` and writes `0` to the
refresh field, the encoding under which the controller imposes no
distributed-refresh bound. -/
theorem c7_zero_interval_writes_zero (p : Nat) (hp : 1 ≤ p)
    (hple : p ≤ U32) : refreshCyclesRaw p 0 = some 0 := by
  have hnum : ((0 % U32 + p) % U32 + (U32 - 1)) % U32 = p - 1 := by
    unfold U32 at *
    omega
  unfold refreshCyclesRaw
  rw [if_neg (by omega)]
  simp only [Nat.mul_zero]
  rw [hnum]
  rw [Nat.div_eq_of_lt (by omega)]

/-- Witness for C7 at the period of the concrete Hyperbus scenario. -/
theorem c7_witness : refreshCyclesRaw 21 0 = some 0 :=
  c7_zero_interval_writes_zero 21 (by decide) (by decide)

/-- C8 amended: in the overflow-free regime (the doubled interval still
representable after the `1000 *` nanosecond conversion) doubling the refresh
interval never decreases the refresh cycle count. -/
theorem c8_monotone_no_overflow (p i a b : Nat) (hp : 1 ≤ p)
    (hov : 1000 * (2 * i) + p ≤ U32)
    (ha : refreshCyclesRaw p i = some a)
    (hb : refreshCyclesRaw p (2 * i) = some b) : a ≤ b := by
  have hov1 : 1000 * i + p ≤ U32 := by omega
  rw [refreshCyclesRaw_eq p i hp hov1] at ha
  rw [refreshCyclesRaw_eq p (2 * i) hp hov] at hb
  have ha' : a = specCeilDiv (1000 * i) p := by
    exact (Option.some.injEq _ _).mp ha.symm
  have hb' : b = specCeilDiv (1000 * (2 * i)) p := by
    exact (Option.some.injEq _ _).mp hb.symm
  subst ha' hb'
  unfold specCeilDiv
  exact Nat.div_le_div_right (by omega)

/-- Witness for C8: doubling 2 µs to 4 µs at period 21 ns. -/
theorem c8_witness : (96 : Nat) ≤ 191 :=
  c8_monotone_no_overflow 21 2 96 191 (by decide) (by decide) (by decide)
    (by decide)

/-- C9: for every well-formed Hyperbus configuration whose divisor passes the
range check (and escapes the divisor-256 truncation defect of C1), the
CS-boundary field programmed into DCR3 is `device_size_order - 1`;
concretely, a size order of 24 addresses `2 ^ 24 = 16777216` bytes and
programs a CS boundary of 23. -/
theorem c9_csbound_is_order_minus_one (regs : OctospiRegs)
    (hyp : HyperbusConfig) (k : Nat) (hwf : hyp.Wellformed)
    (h1 : 1 ≤ u32CeilExpr k hyp.frequency)
    (h2 : u32CeilExpr k hyp.frequency ≤ 256)
    (h3 : u32CeilExpr k hyp.frequency ≠ 256) :
    (octospiHyperbusConfigure regs hyp k).1.dcr3_csbound =
      hyp.size_order - 1 ∧
    (octospiHyperbusConfigure OctospiRegs.reset
      ((HyperbusConfig.new 50000000).setDeviceSizeBytes 24)
      280000000).1.dcr3_csbound = 23 ∧
    (2 : Nat) ^ 24 = 16777216 := by
  obtain ⟨hso5, hso26, -⟩ := hwf
  have hmod : u32CeilExpr k hyp.frequency % 256 = u32CeilExpr k hyp.frequency :=
    Nat.mod_eq_of_lt (by omega)
  have hne : ¬ (u32CeilExpr k hyp.frequency % 256 = 0) := by
    rw [hmod]
    omega
  refine ⟨?_, by decide, by decide⟩
  simp only [octospiHyperbusConfigure]
  rw [if_pos ⟨h1, h2⟩, if_neg hne]
  cases hrc : refreshCyclesRaw
      (hyperbusPeriodNs (u32CeilExpr k hyp.frequency % 256) k)
      hyp.refresh_interval with
  | none => simp [Option.elim, u8sub1]; omega
  | some rc => simp [Option.elim, u8sub1]; omega

/-- Witness for C9 at the concrete scenario: size order 24 at the
280 MHz / 50 MHz operating point (divisor 6). -/
theorem c9_witness :
    (octospiHyperbusConfigure OctospiRegs.reset
      ((HyperbusConfig.new 50000000).setDeviceSizeBytes 24)
      280000000).1.dcr3_csbound =
      ((HyperbusConfig.new 50000000).setDeviceSizeBytes 24).size_order - 1 ∧
    (octospiHyperbusConfigure OctospiRegs.reset
      ((HyperbusConfig.new 50000000).setDeviceSizeBytes 24)
      280000000).1.dcr3_csbound = 23 ∧
    (2 : Nat) ^ 24 = 16777216 :=
  c9_csbound_is_order_minus_one OctospiRegs.reset
    ((HyperbusConfig.new 50000000).setDeviceSizeBytes 24) 280000000
    (by unfold HyperbusConfig.Wellformed; decide)
    (by decide) (by decide) (by decide)

/-! ## Termination of the trim search -/

/-- A completed trim-search run polled the flag as set at some iteration. -/
theorem calLoop_some_implies_flag (flag : Nat → Bool) :
    ∀ fuel k trim tr, calLoop flag fuel k trim = some tr →
      ∃ n, flag n = true := by
  intro fuel
  induction fuel with
  | zero =>
    intro k trim tr h
    simp [calLoop] at h
  | succ fuel ih =>
    intro k trim tr h
    by_cases hf : flag k = true
    · exact ⟨k, hf⟩
    · rw [calLoop, if_neg hf] at h
      rcases Option.map_eq_some'.mp h with ⟨l, hl, -⟩
      exact ih (k + 1) (u8wrapSucc trim) l hl

/-- If the flag reads set at poll `k + n`, the trim search finishes within
`n + 1` iterations. -/
theorem calLoop_terminates (flag : Nat → Bool) :
    ∀ n k trim, flag (k + n) = true →
      ∃ tr, calLoop flag (n + 1) k trim = some tr := by
  intro n
  induction n with
  | zero =>
    intro k trim h
    rw [Nat.add_zero] at h
    exact ⟨_, by rw [calLoop, if_pos h]⟩
  | succ n ih =>
    intro k trim h
    by_cases hk : flag k = true
    · exact ⟨_, by rw [calLoop, if_pos hk]⟩
    · have h' : flag (k + 1 + n) = true := by
        have hidx : k + 1 + n = k + (n + 1) := by omega
        rw [hidx]
        exact h
      rcases ih (k + 1) (u8wrapSucc trim) h' with ⟨tr, htr⟩
      exact ⟨_, by rw [calLoop, if_neg hk, htr]; rfl⟩

/-- C5: `calibrate_buffer` terminates exactly when the calibration-complete
flag eventually reads as set during some poll (the fuel-indexed model returns
a trace for some fuel); if the flag never asserts, no amount of fuel finishes
the loop, which is the unbounded `while true` of the source never
terminating. -/
theorem c5_terminates_iff_flag_asserts (flag : Nat → Bool) :
    (∃ fuel tr, calibrateBufferTrace flag fuel = some tr) ↔
      ∃ n, flag n = true := by
  constructor
  · rintro ⟨fuel, tr, h⟩
    unfold calibrateBufferTrace at h
    rcases Option.map_eq_some'.mp h with ⟨l, hl, -⟩
    exact calLoop_some_implies_flag flag fuel 0 0 l hl
  · rintro ⟨n, hn⟩
    have h0 : flag (0 + n) = true := by
      rw [Nat.zero_add]
      exact hn
    rcases calLoop_terminates flag n 0 0 h0 with ⟨tr, htr⟩
    refine ⟨n + 1, .clearEn :: .modeZero :: .setCen :: (tr ++ [.clearCen]), ?_⟩
    unfold calibrateBufferTrace
    rw [htr]
    rfl

/-! ## The calibration effect sequence -/

/-- Closed form of the trim-search loop: if the flag first reads set at the
n-th poll, the loop runs exactly `n + 1` iterations, each programming the
wrapped trim counter, waiting 64 µs and polling once. -/
theorem calLoop_run (flag : Nat → Bool) :
    ∀ n k trim fuel, trim < 256 → (∀ j, j < n → flag (k + j) = false) →
      flag (k + n) = true → n < fuel →
      calLoop flag fuel k trim =
        some ((List.range (n + 1)).flatMap fun j =>
          [.writeTrim ((trim + j) % 256), .delayUs 64,
            .pollFlag (flag (k + j))]) := by
  intro n
  induction n with
  | zero =>
    intro k trim fuel htrim hb hn hfuel
    rcases fuel with _ | fuel
    · omega
    · rw [Nat.add_zero] at hn
      rw [calLoop, if_pos hn]
      rw [show List.range 1 = [0] from rfl]
      simp [Nat.mod_eq_of_lt htrim]
  | succ n ih =>
    intro k trim fuel htrim hb hn hfuel
    rcases fuel with _ | fuel
    · omega
    · have hk : flag k = false := by
        have h0 := hb 0 (by omega)
        rwa [Nat.add_zero] at h0
      have hb' : ∀ j, j < n → flag (k + 1 + j) = false := by
        intro j hj
        have hidx : k + 1 + j = k + (j + 1) := by omega
        rw [hidx]
        exact hb (j + 1) (by omega)
      have hn' : flag (k + 1 + n) = true := by
        have hidx : k + 1 + n = k + (n + 1) := by omega
        rw [hidx]
        exact hn
      have ih' := ih (k + 1) ((trim + 1) % 256) fuel
        (Nat.mod_lt _ (by omega)) hb' hn' (by omega)
      rw [calLoop, if_neg (by rw [hk]; simp)]
      simp only [u8wrapSucc]
      rw [ih', Option.map_some']
      have hsplit : ((List.range (n + 1 + 1)).flatMap fun j =>
          [DacEvent.writeTrim ((trim + j) % 256), DacEvent.delayUs 64,
            DacEvent.pollFlag (flag (k + j))]) =
          [DacEvent.writeTrim ((trim + 0) % 256), DacEvent.delayUs 64,
            DacEvent.pollFlag (flag (k + 0))] ++
          ((List.range (n + 1)).flatMap fun j =>
            [DacEvent.writeTrim ((trim + (j + 1)) % 256), DacEvent.delayUs 64,
              DacEvent.pollFlag (flag (k + (j + 1)))]) := by
        rw [List.range_succ_eq_map, List.flatMap_cons, List.flatMap_map]
      rw [hsplit]
      apply congrArg
      have hevs : [DacEvent.writeTrim trim, DacEvent.delayUs 64,
          DacEvent.pollFlag (flag k)] =
          [DacEvent.writeTrim ((trim + 0) % 256), DacEvent.delayUs 64,
            DacEvent.pollFlag (flag (k + 0))] := by
        simp [Nat.mod_eq_of_lt htrim]
      have hrest : ((List.range (n + 1)).flatMap fun j =>
          [DacEvent.writeTrim (((trim + 1) % 256 + j) % 256),
            DacEvent.delayUs 64, DacEvent.pollFlag (flag (k + 1 + j))]) =
          ((List.range (n + 1)).flatMap fun j =>
            [DacEvent.writeTrim ((trim + (j + 1)) % 256), DacEvent.delayUs 64,
              DacEvent.pollFlag (flag (k + (j + 1)))]) := by
        congr 1
        funext j
        have e1 : ((trim + 1) % 256 + j) % 256 = (trim + (j + 1)) % 256 := by
          rw [Nat.mod_add_mod]
          congr 1
          omega
        have e2 : k + 1 + j = k + (j + 1) := by omega
        rw [e1, e2]
      rw [hevs, hrest]

/-- C4: when the calibration flag first reads set at the n-th poll,
`calibrate_buffer` performs exactly the claimed effect sequence: clear the
enable bit, zero the buffered-mode field, set the calibration-enable bit,
then for each iteration program the (wrapped 8-bit) trim counter, delay
64 µs and poll, stopping at the set flag; finally clear the
calibration-enable bit and return a `Disabled` token. -/
theorem c4_calibrate_effect_sequence (flag : Nat → Bool) (n : Nat)
    (hb : ∀ j, j < n → flag j = false) (hn : flag n = true) :
    calibrateBufferTrace flag (n + 1) =
      some (.clearEn :: .modeZero :: .setCen ::
        (((List.range (n + 1)).flatMap fun j =>
          [.writeTrim (j % 256), .delayUs 64, .pollFlag (flag j)]) ++
          [.clearCen])) ∧
    calibrateBufferResultState = .disabled := by
  refine ⟨?_, rfl⟩
  unfold calibrateBufferTrace
  have hb0 : ∀ j, j < n → flag (0 + j) = false := by
    intro j hj
    rw [Nat.zero_add]
    exact hb j hj
  have hn0 : flag (0 + n) = true := by
    rw [Nat.zero_add]
    exact hn
  rw [calLoop_run flag n 0 0 (n + 1) (by omega) hb0 hn0 (by omega)]
  simp only [Option.map_some', Nat.zero_add]

/-- Witness for C4: the flag asserts at the third poll (`n = 2`). -/
theorem c4_witness :
    calibrateBufferTrace (fun t => t == 2) (2 + 1) =
      some (.clearEn :: .modeZero :: .setCen ::
        (((List.range (2 + 1)).flatMap fun j =>
          [.writeTrim (j % 256), .delayUs 64,
            .pollFlag ((fun t => t == 2) j)]) ++ [.clearCen])) ∧
    calibrateBufferResultState = .disabled :=
  c4_calibrate_effect_sequence (fun t => t == 2) 2 (by decide) (by decide)

/-! ## The 8-bit trim counter -/

/-- Every trim value a completed search programs stays within the `u8` range
when the starting value does. -/
theorem calLoop_trims_bounded (flag : Nat → Bool) :
    ∀ fuel k trim tr, trim < 256 → calLoop flag fuel k trim = some tr →
      ∀ t, DacEvent.writeTrim t ∈ tr → t ≤ 255 := by
  intro fuel
  induction fuel with
  | zero =>
    intro k trim tr htrim h
    simp [calLoop] at h
  | succ fuel ih =>
    intro k trim tr htrim h t ht
    by_cases hf : flag k = true
    · rw [calLoop, if_pos hf] at h
      obtain rfl : _ = tr := Option.some.inj h
      simp only [List.mem_cons, List.not_mem_nil, or_false] at ht
      rcases ht with h1 | h1 | h1 <;> simp at h1
      omega
    · rw [calLoop, if_neg hf] at h
      rcases Option.map_eq_some'.mp h with ⟨l, hl, rfl⟩
      rcases List.mem_append.mp ht with h1 | h2
      · simp only [List.mem_cons, List.not_mem_nil, or_false] at h1
        rcases h1 with h1 | h1 | h1 <;> simp at h1
        omega
      · exact ih (k + 1) (u8wrapSucc trim) l
          (by unfold u8wrapSucc; omega) hl t h2

/-- Concatenating singletons is mapping. -/
theorem flatMap_single {α β : Type} (l : List α) (f : α → β) :
    (l.flatMap fun a => [f a]) = l.map f := by
  induction l with
  | nil => rfl
  | cons a l ih => simp [List.flatMap_cons, ih]

/-- Under checked (debug-build) `u8` arithmetic, a run of the loop that never
sees the flag set through the iteration where `trim` reaches 255 aborts on
the increment `255 + 1`. -/
theorem calLoopChecked_aborts (flag : Nat → Bool) :
    ∀ m k trim fuel, trim + m = 255 → m + 2 ≤ fuel →
      (∀ j, j ≤ m → flag (k + j) = false) →
      calLoopChecked flag fuel k trim = some none := by
  intro m
  induction m with
  | zero =>
    intro k trim fuel htrim hfuel hflags
    have h0 : flag k = false := by
      have hx := hflags 0 (Nat.le_refl 0)
      rwa [Nat.add_zero] at hx
    rcases fuel with _ | fuel
    · omega
    · rw [calLoopChecked, if_neg (by rw [h0]; simp), if_pos (by omega)]
  | succ m ih =>
    intro k trim fuel htrim hfuel hflags
    have h0 : flag k = false := by
      have hx := hflags 0 (Nat.zero_le _)
      rwa [Nat.add_zero] at hx
    rcases fuel with _ | fuel
    · omega
    · have hrec := ih (k + 1) (trim + 1) fuel (by omega) (by omega)
        (fun j hj => by
          have hx := hflags (j + 1) (by omega)
          have hidx : k + 1 + j = k + (j + 1) := by omega
          rwa [hidx])
      rw [calLoopChecked, if_neg (by rw [h0]; simp), if_neg (by omega), hrec]
      rfl

/-- C10: the trim counter of `calibrate_buffer` is an unchecked `u8`.  Under
release (wrapping) semantics the value programmed at iteration `k` is
`k % 256` and a value above 255 is never programmed; under checked
(debug-build) semantics a run whose flag stays clear for the first 256 polls
aborts at the overflowing increment. -/
theorem c10_trim_counter_u8 (flag : Nat → Bool)
    (h : ∀ k, k < 256 → flag k = false) :
    (∀ fuel k trim tr, trim < 256 → calLoop flag fuel k trim = some tr →
      ∀ t, DacEvent.writeTrim t ∈ tr → t ≤ 255) ∧
    (∀ n, (∀ j, j < n → flag j = false) → flag n = true →
      ∀ tr, calibrateBufferTrace flag (n + 1) = some tr →
        trimWrites tr = (List.range (n + 1)).map (fun j => j % 256)) ∧
    calLoopChecked flag 257 0 0 = some none := by
  refine ⟨calLoop_trims_bounded flag, ?_, ?_⟩
  · intro n hb hn tr htr
    have hb0 : ∀ j, j < n → flag (0 + j) = false := by
      intro j hj
      rw [Nat.zero_add]
      exact hb j hj
    have hn0 : flag (0 + n) = true := by
      rw [Nat.zero_add]
      exact hn
    unfold calibrateBufferTrace at htr
    rw [calLoop_run flag n 0 0 (n + 1) (by omega) hb0 hn0 (by omega),
      Option.map_some'] at htr
    obtain rfl : _ = tr := Option.some.inj htr
    simp [trimWrites, List.filterMap_cons, List.filterMap_append,
      List.filterMap_flatMap, flatMap_single]
  · exact calLoopChecked_aborts flag 255 0 0 257 (by omega) (by omega)
      (fun j hj => by
        rw [Nat.zero_add]
        exact h j (by omega))

set_option maxRecDepth 4096 in
/-- Witness for C10 with a flag that never asserts before the 257th poll. -/
theorem c10_witness :
    (∀ fuel k trim tr, trim < 256 →
      calLoop (fun j => decide (256 ≤ j)) fuel k trim = some tr →
      ∀ t, DacEvent.writeTrim t ∈ tr → t ≤ 255) ∧
    (∀ n, (∀ j, j < n → (fun j => decide (256 ≤ j)) j = false) →
      (fun j => decide (256 ≤ j)) n = true →
      ∀ tr, calibrateBufferTrace (fun j => decide (256 ≤ j)) (n + 1) =
        some tr →
        trimWrites tr = (List.range (n + 1)).map (fun j => j % 256)) ∧
    calLoopChecked (fun j => decide (256 ≤ j)) 257 0 0 = some none :=
  c10_trim_counter_u8 (fun j => decide (256 ≤ j)) (by decide)

end Stm32Hal
